import Mathlib

/-!
Verification of the nf-core tools extension sources:
  `nf_core/test_datasets/test_datasets_utils.py`,
  `nf_core/commands_test_datasets.py`,
  `nf_core/components/components_utils.py`.

The Python code is shallowly embedded: each remote HTTP call is abstracted
into an explicit `GetResult` environment value (connection failure, or a
response with an ok-flag and an optionally-parsable JSON body), interactive
prompts into explicit answer fields, and Python exceptions into explicit
outcome constructors.
-/

namespace NfCore

/-- Minimal JSON value model for decoded response bodies.  `other` stands for
all scalar values the embedded code never inspects structurally
(numbers, booleans, null); they are only ever iterated or indexed, which in
Python raises `TypeError` uniformly for these shapes. -/
inductive Json where
  | str (s : String)
  | arr (elems : List Json)
  | obj (fields : List (String × Json))
  | other
deriving Repr

mutual

/-- Structural equality on `Json`, mirroring Python `==` on decoded values. -/
def jsonBEq : Json → Json → Bool
  | .str a, .str b => a == b
  | .arr a, .arr b => jsonListBEq a b
  | .obj a, .obj b => jsonFieldsBEq a b
  | .other, .other => true
  | _, _ => false

def jsonListBEq : List Json → List Json → Bool
  | [], [] => true
  | x :: xs, y :: ys => jsonBEq x y && jsonListBEq xs ys
  | _, _ => false

def jsonFieldsBEq : List (String × Json) → List (String × Json) → Bool
  | [], [] => true
  | (k, v) :: xs, (l, w) :: ys => k == l && jsonBEq v w && jsonFieldsBEq xs ys
  | _, _ => false

end

/-- Python `s.startswith(pre)` (ASCII-exact; structural so that the kernel
can evaluate it). -/
def pyStartsWith (s pre : String) : Bool := (pre.data).isPrefixOf s.data

/-- Python `s.lower()` restricted to ASCII (all strings the embedded code
lower-cases are matched against `[a-zA-Z_0-9]` or are ASCII identifiers). -/
def pyLower (s : String) : String := ⟨s.data.map Char.toLower⟩

/-- Python `s.split(sep)` for a single-character separator: `"".split(sep)`
is `[""]`, adjacent separators yield empty pieces. -/
def splitOnChar (sep : Char) : List Char → List (List Char)
  | [] => [[]]
  | c :: rest =>
    let r := splitOnChar sep rest
    if c == sep then [] :: r
    else
      match r with
      | h :: t => (c :: h) :: t
      | [] => [[c]]

/-- Python `b == branch` for `b` a decoded JSON value and `branch` a string:
true exactly when `b` is the equal string. -/
def jsonStrEq (j : Json) (s : String) : Bool :=
  match j with
  | .str t => t == s
  | _ => false

/-- Key lookup in a decoded JSON object (`d[key]` succeeding iff present). -/
def lookupField (key : String) : List (String × Json) → Option Json
  | [] => none
  | (k, v) :: rest => if k == key then some v else lookupField key rest

/-- Python iteration over a decoded JSON value: arrays iterate their elements,
dicts their keys (strings), strings their characters (1-char strings);
everything else raises `TypeError` (`none`). -/
def iterElems : Json → Option (List Json)
  | .arr xs => some xs
  | .obj fs => some (fs.map fun p => Json.str p.1)
  | .str s => some (s.data.map fun c => Json.str (String.mk [c]))
  | .other => none

/-- Outcome of running one of the embedded Python functions: a normal return,
or `UnboundLocalError` raised at a `return` of a never-assigned local
(after a caught and logged exception), or an uncaught `KeyError`,
`TypeError`, `AttributeError` propagating out. -/
inductive PyOutcome (α : Type) where
  | ret (a : α)
  | unboundLocal
  | keyError
  | typeError
  | attributeError
deriving Repr, DecidableEq

/-- Environment value describing what one `gh_api.get`/`session.get` call did:
the request raised `requests.exceptions.RequestException`, or a response
arrived with the given `ok` flag and a body that either parses as JSON
(`some j`) or raises `json.decoder.JSONDecodeError` when parsed (`none`). -/
inductive GetResult where
  | requestException
  | response (ok : Bool) (body : Option Json)

/-- The list comprehension `[b["name"] for b in resp_json]`: element dicts
yield their `"name"` value, a dict lacking the key raises `KeyError`,
a non-dict element raises `TypeError`. -/
def extractBranchNames : List Json → PyOutcome (List Json)
  | [] => .ret []
  | .obj fs :: rest =>
    match lookupField "name" fs with
    | none => .keyError
    | some v =>
      match extractBranchNames rest with
      | .ret l => .ret (v :: l)
      | e => e
  | _ :: _ => .typeError

/-- Embedding of `get_remote_branches` (test_datasets_utils.py, lines 50-73).
`try:` wraps the request, the ok check (early `return []`), the JSON parse
and the name extraction; `except` clauses catch `RequestException`,
`KeyError` and `JSONDecodeError`, log, and fall through to
`return branches` — where `branches` was never assigned, raising
`UnboundLocalError`.  `TypeError` is not caught and propagates. -/
def get_remote_branches (r : GetResult) : PyOutcome (List Json) :=
  match r with
  | .requestException => .unboundLocal
  | .response ok body =>
    if !ok then .ret []
    else
      match body with
      | none => .unboundLocal
      | some j =>
        match iterElems j with
        | none => .typeError
        | some elems =>
          match extractBranchNames elems with
          | .keyError => .unboundLocal
          | x => x

/-- The comprehension `[node for node in repo_tree if node["type"] == "blob"]`:
keeps object nodes whose `"type"` value equals `"blob"`; a node lacking the
key raises `KeyError` (uncaught in `get_remote_tree_for_branch`), a
non-object node raises `TypeError`. -/
def blobFilter : List Json → PyOutcome (List Json)
  | [] => .ret []
  | .obj fs :: rest =>
    match lookupField "type" fs with
    | none => .keyError
    | some v =>
      match blobFilter rest with
      | .ret l => .ret (if jsonBEq v (.str "blob") then .obj fs :: l else l)
      | e => e
  | _ :: _ => .typeError

/-- The ignored-prefix loop of `get_remote_tree_for_branch`
(test_datasets_utils.py, lines 100-106): for each node, if
`node["path"].startswith(pre)` for some ignored front-piece the node is
skipped, otherwise `node["path"]` is appended.  A node lacking `"path"`
raises `KeyError`; when the ignored list is non-empty a non-string path
raises `AttributeError` at the first `startswith` call. -/
def ignoredFilter (ignored : List String) : List Json → PyOutcome (List Json)
  | [] => .ret []
  | .obj fs :: rest =>
    match lookupField "path" fs with
    | none => .keyError
    | some v =>
      if ignored.isEmpty then
        match ignoredFilter ignored rest with
        | .ret l => .ret (v :: l)
        | e => e
      else
        match v with
        | .str s =>
          match ignoredFilter ignored rest with
          | .ret l =>
            .ret (if ignored.any (fun pre => pyStartsWith s pre) then l
                  else .str s :: l)
          | e => e
        | _ => .attributeError
  | _ :: _ => .typeError

/-- Indexing `json.loads(response.text)["tree"]`: objects look the key up
(`KeyError` when absent, uncaught in this function), every other decoded
shape raises `TypeError`. -/
def treeIndex (j : Json) : PyOutcome Json :=
  match j with
  | .obj fs =>
    match lookupField "tree" fs with
    | none => .keyError
    | some v => .ret v
  | _ => .typeError

/-- Embedding of `get_remote_tree_for_branch`
(test_datasets_utils.py, lines 76-114).  `try:` covers everything up to the
filter loops; only `RequestException` and `JSONDecodeError` are caught
(logged, then `return repo_files` with `repo_files` unbound raises
`UnboundLocalError`); `KeyError`, `TypeError` and `AttributeError`
propagate. -/
def get_remote_tree_for_branch (r : GetResult) (only_files : Bool)
    (ignored_prefixes : List String) : PyOutcome (List Json) :=
  match r with
  | .requestException => .unboundLocal
  | .response ok body =>
    if !ok then .ret []
    else
      match body with
      | none => .unboundLocal
      | some j =>
        match treeIndex j with
        | .ret repo_tree =>
          match iterElems repo_tree with
          | none => .typeError
          | some elems =>
            match (if only_files then blobFilter elems else .ret elems) with
            | .ret kept => ignoredFilter ignored_prefixes kept
            | e => e
        | .keyError => .keyError
        | .typeError => .typeError
        | .unboundLocal => .unboundLocal
        | .attributeError => .attributeError

/-- Constant `IGNORED_FILE_PREFIXES` from commands_test_datasets.py, lines 17-23. -/
def IGNORED_FILE_PREFIXES : List String :=
  [".", "CITATION", "LICENSE", "README", "docs"]

/-- Python dict assignment `d[k] = v` on an insertion-ordered dict keyed by
decoded JSON values: replaces in place when the key is present, appends
otherwise. -/
def jsonDictInsert (d : List (Json × List Json)) (k : Json) (v : List Json) :
    List (Json × List Json) :=
  if d.any (fun p => jsonBEq p.1 k) then
    d.map (fun p => if jsonBEq p.1 k then (k, v) else p)
  else d ++ [(k, v)]

/-- The `for b in branches: tree[b] = get_remote_tree_for_branch(b, ...)`
loop of `list_files_by_branch`.  Returns the loop outcome together with the
list of branches for which a tree fetch was actually issued; an exception
escaping one fetch aborts the loop and propagates. -/
def fetchTrees (treeResp : Json → GetResult) (ignored : List String) :
    List Json → List (Json × List Json) →
    PyOutcome (List (Json × List Json)) × List Json
  | [], acc => (.ret acc, [])
  | b :: rest, acc =>
    match get_remote_tree_for_branch (treeResp b) true ignored with
    | .ret files =>
      let r := fetchTrees treeResp ignored rest (jsonDictInsert acc b files)
      (r.1, b :: r.2)
    | .unboundLocal => (.unboundLocal, [b])
    | .keyError => (.keyError, [b])
    | .typeError => (.typeError, [b])
    | .attributeError => (.attributeError, [b])

/-- Result of `list_files_by_branch`: its outcome, whether the
`"No branches matching '<branch>'"` error was logged (and for which
requested name), and which branches had a tree fetch issued. -/
structure ListFilesResult where
  outcome : PyOutcome (List (Json × List Json))
  noMatchLogged : Option String
  treeFetches : List Json
deriving Repr

/-- Embedding of `list_files_by_branch` (test_datasets_utils.py, lines
117-137).  `branchArg = some br` with `br ≠ ""` models a truthy `branch`
argument (Python `if branch:`); the fetched branch list comes from
`get_remote_branches`, whose exceptions propagate (no `try` here). -/
def list_files_by_branch (branchArg : Option String)
    (ignored_file_prefixes : List String) (branchesResp : GetResult)
    (treeResp : Json → GetResult) : ListFilesResult :=
  match get_remote_branches branchesResp with
  | .ret bs =>
    let sel : List Json × Option String :=
      match branchArg with
      | some br =>
        if br = "" then (bs, none)
        else
          let f := bs.filter (fun b => jsonStrEq b br)
          (f, if f.isEmpty then some br else none)
      | none => (bs, none)
    let r := fetchTrees treeResp ignored_file_prefixes sel.1 []
    ⟨r.1, sel.2, r.2⟩
  | .unboundLocal => ⟨.unboundLocal, none, []⟩
  | .keyError => ⟨.keyError, none, []⟩
  | .typeError => ⟨.typeError, none, []⟩
  | .attributeError => ⟨.attributeError, none, []⟩

/-- The `generate_nf_path` output of `test_datasets_search`
(commands_test_datasets.py, lines 63-68), built exactly as the source
builds it by successive concatenation. -/
def nf_path_output (branch selection : String) : String :=
  let out1 := "params."
  let out2 := out1 ++ (if branch == "modules" then "modules_" else "pipelines_")
  let out3 := out2 ++ "testdata_base_path + \"" ++ selection ++ "\""
  "file(" ++ out3 ++ ", checkIfExists: true)"

/-! ## components_utils.py: the include-statement recognizer

Embedding of `re.match` with the pattern (components_utils.py, line 158)

  include(?: *\x7b *)([a-zA-Z\_0-9]*)(?: *as *)?(?:[a-zA-Z\_0-9]*)?(?: *\x7d)(?: *from *)(?:'|")(.*)(?:'|")

`re.match` anchors at the start of the line.  The spaces, word-character
runs and the host run below are matched by maximal munch, which is
equivalent to the greedy-with-backtracking semantics here because each run
is followed by a character outside its class; the one place genuine
backtracking matters — the first capture group interacting with the
optional `as` clause — is played out explicitly in `nameSearch`, and the
greedy `(.*)` before the closing quote resolves to the last quote character
on the line (`.` does not match a newline). -/

def isWordChar (c : Char) : Bool :=
  (decide ('a' ≤ c) && decide (c ≤ 'z')) ||
  (decide ('A' ≤ c) && decide (c ≤ 'Z')) ||
  (decide ('0' ≤ c) && decide (c ≤ '9')) || c == '_'

def isQuoteChar (c : Char) : Bool := c == '\'' || c == '"'

def dropSpaces (cs : List Char) : List Char := cs.dropWhile (fun c => c == ' ')

def takeWord (cs : List Char) : List Char := cs.takeWhile isWordChar

def dropWord (cs : List Char) : List Char := cs.dropWhile isWordChar

/-- The optional `(?: *as *)` clause: spaces, the literal `as`, spaces. -/
def asClause (cs : List Char) : Option (List Char) :=
  match dropSpaces cs with
  | 'a' :: 's' :: r => some (dropSpaces r)
  | _ => none

/-- Pattern piece `(?:[a-zA-Z\_0-9]*)?(?: *\x7d)`: the optional alias run, spaces, and the
closing brace; returns the remainder after the brace. -/
def braceTail (cs : List Char) : Option (List Char) :=
  match dropSpaces (dropWord cs) with
  | '\x7d' :: r => some r
  | _ => none

/-- Everything between the first capture group and the closing brace: the
optional `as` clause is tried first (greedy option), falling back to its
absence, as the regex engine does. -/
def afterName (cs : List Char) : Option (List Char) :=
  match asClause cs with
  | some cs1 =>
    match braceTail cs1 with
    | some r => some r
    | none => braceTail cs
  | none => braceTail cs

/-- Greedy match of the first capture group `([a-zA-Z\_0-9]*)`: with `w` the
maximal word-character run and `r` the rest, try giving the group the first
`i` characters of `w`, longest first, exactly as backtracking does. -/
def nameSearch (w r : List Char) : Nat → Option (String × List Char)
  | 0 =>
    match afterName (w ++ r) with
    | some rest => some ("", rest)
    | none => none
  | i + 1 =>
    match afterName (w.drop (i + 1) ++ r) with
    | some rest => some (String.mk (w.take (i + 1)), rest)
    | none => nameSearch w r i

/-- The content of the greedy `(.*)` capture followed by a final quote:
everything before the last quote character of the line segment. -/
def lastQuoteContent (seg : List Char) : Option String :=
  match (seg.reverse).dropWhile (fun c => !isQuoteChar c) with
  | _ :: rest => some (String.mk rest.reverse)
  | [] => none

/-- Pattern piece `(?: *from *)(?:'|")(.*)(?:'|")`: spaces, the literal `from`, spaces, an
opening quote, then the greedy dot-star capped by the last quote before the
end of the line (`.` never matches `\n`). -/
def fromAndLink (cs : List Char) : Option String :=
  match dropSpaces cs with
  | 'f' :: 'r' :: 'o' :: 'm' :: r =>
    match dropSpaces r with
    | q :: r2 =>
      if isQuoteChar q then
        lastQuoteContent (r2.takeWhile (fun c => !(c == '\n')))
      else none
    | [] => none
  | _ => none

/-- Matching `regex.match(line)` for the include pattern, returning the two capture
groups (imported symbol, quoted path) when the line matches. -/
def matchInclude (line : String) : Option (String × String) :=
  if ("include".data).isPrefixOf line.data then
    match dropSpaces (line.data.drop 7) with
    | '\x7b' :: cs2 =>
      let cs3 := dropSpaces cs2
      let w := takeWord cs3
      match nameSearch w (dropWord cs3) w.length with
      | some (name, rest) =>
        match fromAndLink rest with
        | some link => some (name, link)
        | none => none
      | none => none
    | _ => none
  else none

/-! ## components_utils.py: dependency parsing and enrichment -/

/-- One record of the `modules` / `subworkflows` dicts built by
`get_components_to_install`: the Python dict starts as
`\x7b"name": component_name\x7d` and is later enriched with `org_path`,
`git_remote` and `branch` (the latter possibly `None`, hence the nested
`Option`). -/
structure CompInfo where
  name : Option String
  org_path : Option String
  git_remote : Option String
  branch : Option (Option String)
deriving Repr, DecidableEq

/-- Association-list lookup, i.e. Python `d[k]` succeeding iff the key is
present (insertion-ordered dict). -/
def alistLookup {α : Type} (key : String) : List (String × α) → Option α
  | [] => none
  | (k, v) :: rest => if k == key then some v else alistLookup key rest

/-- Python dict membership `k in d`. -/
def alistMem {α : Type} (d : List (String × α)) (key : String) : Bool :=
  d.any (fun p => p.1 == key)

/-- Python dict assignment `d[k] = v`: replace in place when present, append
otherwise. -/
def alistInsert {α : Type} (d : List (String × α)) (key : String) (v : α) :
    List (String × α) :=
  if alistMem d key then d.map (fun p => if p.1 == key then (key, v) else p)
  else d ++ [(key, v)]

/-- In-place mutation of the record stored under a present key
(`d[k].update(...)`; keys are unique in these dicts). -/
def alistUpdate {α : Type} : List (String × α) → String → (α → α) →
    List (String × α)
  | [], _, _ => []
  | (k, v) :: rest, key, f =>
    if k == key then (k, f v) :: alistUpdate rest key f
    else (k, v) :: alistUpdate rest key f

/-- Python `name.lower().split("_")` joined with `/` — the canonical module name
(components_utils.py, lines 164-165). -/
def moduleNameOf (name : String) : String :=
  ⟨List.intercalate ['/'] (splitOnChar '_' ((pyLower name).data))⟩

/-- The line scan of `get_components_to_install` (components_utils.py, lines
155-173): each line matching the include pattern adds a name-only record to
the modules dict (path starting `../../../`) or the subworkflows dict (path
starting `../`). -/
def scan_main_nf (lines : List String) :
    List (String × CompInfo) × List (String × CompInfo) :=
  lines.foldl
    (fun acc line =>
      match matchInclude line with
      | some (name, link) =>
        if pyStartsWith link "../../../" then
          let cn := moduleNameOf name
          (alistInsert acc.1 cn ⟨some cn, none, none, none⟩, acc.2)
        else if pyStartsWith link "../" then
          let cn := pyLower name
          (acc.1, alistInsert acc.2 cn ⟨some cn, none, none, none⟩)
        else acc
      | none => acc)
    ([], [])

/-- Character class `[\w\.]` of the org-path pattern. -/
def isHostChar (c : Char) : Bool := isWordChar c || c == '.'

/-- Drop `n` leading characters when `pre` is a prefix, else fail. -/
def expectLit (pre cs : List Char) : Option (List Char) :=
  if pre.isPrefixOf cs then some (cs.drop pre.length) else none

/-- One anchored attempt of the pattern
`(?:https://|git@)[\w\.]+[:/](.*?)/` (components_utils.py, line 184):
alternation in written order, greedy host run, one `:` or `/`, then the
lazy capture up to the first `/` on the line. -/
def orgTryAt (cs : List Char) : Option String :=
  let after :=
    match expectLit ("https://".data) cs with
    | some r => some r
    | none => expectLit ("git@".data) cs
  match after with
  | none => none
  | some r =>
    let host := r.takeWhile isHostChar
    if host.isEmpty then none
    else
      match r.drop host.length with
      | c :: r2 =>
        if c == ':' || c == '/' then
          let capt := r2.takeWhile (fun d => !(d == '/') && !(d == '\n'))
          match r2.drop capt.length with
          | '/' :: _ => some (String.mk capt)
          | _ => none
        else none
      | [] => none

/-- Semantics of `re.search`: try the anchored attempt at each start position, leftmost
first. -/
def orgSearchFrom : List Char → Option String
  | [] => none
  | c :: rest =>
    match orgTryAt (c :: rest) with
    | some s => some s
    | none => orgSearchFrom rest

/-- Python `re.search(r"(?:https://|git@)[\w\.]+[:/](.*?)/", git_remote)` giving
group 1. -/
def org_path_search (s : String) : Option String := orgSearchFrom s.data

/-- The value stored under a component name in a `meta.yml` components
entry: the `git_remote` key (absent ⇒ `KeyError`) and the optional
`branch` key read with `.get`. -/
structure MetaFields where
  git_remote : Option String
  branch : Option String
deriving Repr, DecidableEq

/-- One entry of the `components` list of `meta.yml`: either not a dict
(skipped by the `isinstance` guard) or a dict given as its ordered
key/value pairs. -/
inductive MetaComponent where
  | notDict
  | dict (fields : List (String × MetaFields))
deriving Repr, DecidableEq

/-- Failures escaping `get_components_to_install`: Python `IndexError` /
`KeyError` at the annotated spots, and the `UserWarning` raised when no
organisation path can be extracted.  The constructors record the raise
site; in Python all three `KeyError`s carry the offending key. -/
inductive CompErr where
  | indexError
  | keyErrorComponent (k : String)
  | keyErrorGitRemote (k : String)
  | unresolvedOrg (k : String)
  | keyErrorUpdate (k : String)
deriving Repr, DecidableEq

/-- Processing of one `components` entry (components_utils.py, lines
180-197): take the first key, lower-case it, look the lowered key back up,
read `git_remote`, extract the organisation path, then merge
`org_path`/`git_remote`/`branch` into the subworkflows dict when the name
is there, else into the modules dict — where a missing name raises
`KeyError` at the `.update` line. -/
def enrichOne (mods subs : List (String × CompInfo)) (c : MetaComponent) :
    Except CompErr (List (String × CompInfo) × List (String × CompInfo)) :=
  match c with
  | .notDict => .ok (mods, subs)
  | .dict [] => .error .indexError
  | .dict ((k0, f0) :: rest) =>
    let fields := (k0, f0) :: rest
    let cname := pyLower k0
    match alistLookup cname fields with
    | none => .error (.keyErrorComponent cname)
    | some mf =>
      match mf.git_remote with
      | none => .error (.keyErrorGitRemote cname)
      | some gr =>
        match org_path_search gr with
        | none => .error (.unresolvedOrg cname)
        | some org =>
          let upd : CompInfo → CompInfo := fun r =>
            { r with org_path := some org, git_remote := some gr,
                     branch := some mf.branch }
          if alistMem subs cname then .ok (mods, alistUpdate subs cname upd)
          else
            match alistLookup cname mods with
            | none => .error (.keyErrorUpdate cname)
            | some _ => .ok (alistUpdate mods cname upd, subs)

/-- The enrichment loop over the `components` list. -/
def enrichComponents (mods subs : List (String × CompInfo)) :
    List MetaComponent →
    Except CompErr (List (String × CompInfo) × List (String × CompInfo))
  | [] => .ok (mods, subs)
  | c :: cs =>
    match enrichOne mods subs c with
    | .ok (m, s) => enrichComponents m s cs
    | .error e => .error e

/-- Embedding of `get_components_to_install` (components_utils.py, lines
146-199): scan the main source lines, run the enrichment when a `meta.yml`
with a `components` list exists (`meta = none` covers both a missing file
and a file without the key — the code skips enrichment identically in both
cases), and return the two dicts' values in insertion order. -/
def get_components_to_install (lines : List String)
    (meta : Option (List MetaComponent)) :
    Except CompErr (List CompInfo × List CompInfo) :=
  let s := scan_main_nf lines
  match meta with
  | none => .ok (s.1.map (·.2), s.2.map (·.2))
  | some comps =>
    match enrichComponents s.1 s.2 comps with
    | .ok (m, sb) => .ok (m.map (·.2), sb.map (·.2))
    | .error e => .error e

/-! ## components_utils.py: get_repo_info -/

/-- Environment for `get_repo_info` (components_utils.py, lines 23-89):
what the directory walk and `.nf-core.yml` config hold, and what the
interactive prompts would answer if invoked.  `repository_type = some ""`
models a falsy configured value (treated as unset by `... or None`);
`org_path = none` models a missing/`None` attribute
(`getattr(..., "") or ""`). -/
structure RepoConfigEnv where
  dir_exists : Bool
  config_found : Bool
  repository_type : Option String
  org_path : Option String
  typePromptAnswer : String
  typeConfirmSave : Bool
  orgPromptAnswer : String
  orgConfirmSave : Bool
deriving Repr

/-- The `UserWarning`s `get_repo_info` can raise. -/
inductive RepoErr where
  | missingDirectory
  | missingConfig
  | unresolvedType
  | invalidType (s : String)
  | unresolvedOrg
deriving Repr, DecidableEq

/-- Result of `get_repo_info`: the returned `(repo_type, org)` pair or the
raised error, plus which interactive prompts were presented and which
lines were appended to the config file. -/
structure RepoInfoResult where
  outcome : Except RepoErr (String × String)
  typePromptInvoked : Bool
  orgPromptInvoked : Bool
  configAppends : List String
deriving Repr

/-- The tail of `get_repo_info` from the type-validity check on
(components_utils.py, lines 66-89): validate the resolved type, and for
`modules` resolve the organisation path — note the org prompt is guarded
only by the configured value being empty, not by `use_prompt`. -/
def resolveOrgAndFinish (env : RepoConfigEnv) (repo_type : String)
    (typePrompted : Bool) (appends : List String) : RepoInfoResult :=
  if !(repo_type == "pipeline" || repo_type == "modules") then
    ⟨.error (.invalidType repo_type), typePrompted, false, appends⟩
  else if repo_type == "modules" then
    let org0 := match env.org_path with | some s => s | none => ""
    if org0 == "" then
      let org := env.orgPromptAnswer
      let appends2 :=
        appends ++ (if env.orgConfirmSave then ["org_path: " ++ org] else [])
      if org == "" then ⟨.error .unresolvedOrg, typePrompted, true, appends2⟩
      else ⟨.ok (repo_type, org), typePrompted, true, appends2⟩
    else ⟨.ok (repo_type, org0), typePrompted, false, appends⟩
  else ⟨.ok (repo_type, ""), typePrompted, false, appends⟩

/-- Embedding of `get_repo_info` (components_utils.py, lines 23-89). -/
def get_repo_info (env : RepoConfigEnv) (use_prompt : Bool) : RepoInfoResult :=
  if !env.dir_exists then ⟨.error .missingDirectory, false, false, []⟩
  else if !env.config_found then ⟨.error .missingConfig, false, false, []⟩
  else
    let rt0 : Option String :=
      match env.repository_type with
      | some s => if s == "" then none else some s
      | none => none
    match rt0 with
    | none =>
      if use_prompt then
        resolveOrgAndFinish env env.typePromptAnswer true
          (if env.typeConfirmSave then
            ["repository_type: " ++ env.typePromptAnswer] else [])
      else ⟨.error .unresolvedType, false, false, []⟩
    | some rt => resolveOrgAndFinish env rt false []

/-! ## components_utils.py: prompt_component_version_sha -/

/-- One entry of the component git log consumed by the commit picker. -/
structure Commit where
  trunc_message : String
  git_sha : String
deriving Repr, DecidableEq

/-- The `while git_sha == ""` loop of `prompt_component_version_sha`
(components_utils.py, lines 109-143): `curPage` is the batch about to be
shown, `rest` the not-yet-consumed tail of the iterator, and `answers` the
successive values `questionary.select(...).unsafe_ask()` returns (the
"older commits" choice has value `""`).  Returns the selected hash and the
trace of pages shown, each with whether the "older commits" choice was
appended; `none` models an answer that is not among the offered choices or
an exhausted answer script. -/
def promptPages : List Commit → List Commit → List String →
    Option (String × List (List Commit × Bool))
  | _, _, [] => none
  | curPage, rest, a :: answers =>
    let nextPage := rest.take 10
    let older := !nextPage.isEmpty
    let offered := curPage.map (·.git_sha) ++ (if older then [""] else [])
    if offered.contains a then
      if a == "" then
        match promptPages nextPage (rest.drop 10) answers with
        | some (sha, trace) => some (sha, (curPage, older) :: trace)
        | none => none
      else some (a, [(curPage, older)])
    else none

/-- Embedding of `prompt_component_version_sha`: the first page is the first
ten commits of the component git log, fetched before the loop. -/
def prompt_component_version_sha (log : List Commit) (answers : List String) :
    Option (String × List (List Commit × Bool)) :=
  promptPages (log.take 10) (log.drop 10) answers

/-- The page of up to ten commits the picker shows in round `i`. -/
def pageAt (log : List Commit) (i : Nat) : List Commit :=
  (log.drop (10 * i)).take 10

/-- Whether the look-ahead fetch of round `i` (the next batch of up to ten)
yields at least one entry. -/
def lookaheadNonempty (log : List Commit) (i : Nat) : Bool :=
  !((log.drop (10 * (i + 1))).take 10).isEmpty

/-! ## Helper lemmas on the association-list dict operations -/

theorem alistMem_of_lookup {α : Type} {d : List (String × α)} {key : String}
    {v : α} (h : alistLookup key d = some v) : alistMem d key = true := by
  induction d with
  | nil => simp [alistLookup] at h
  | cons p rest ih =>
    obtain ⟨k1, v1⟩ := p
    by_cases hk : (k1 == key) = true
    · simp [alistMem, List.any_cons, hk]
    · simp only [alistLookup, if_neg hk] at h
      have := ih h
      simp only [alistMem, List.any_cons] at this ⊢
      simp [this]

theorem alistLookup_of_not_mem {α : Type} {d : List (String × α)}
    {key : String} (h : alistMem d key = false) :
    alistLookup key d = none := by
  induction d with
  | nil => rfl
  | cons p rest ih =>
    obtain ⟨k1, v1⟩ := p
    simp only [alistMem, List.any_cons, Bool.or_eq_false_iff] at h
    simp [alistLookup, h.1, ih h.2]

theorem alistLookup_update {α : Type} (d : List (String × α)) (key : String)
    (f : α → α) :
    alistLookup key (alistUpdate d key f) = (alistLookup key d).map f := by
  induction d with
  | nil => rfl
  | cons p rest ih =>
    obtain ⟨k1, v1⟩ := p
    by_cases hk : (k1 == key) = true
    · simp [alistUpdate, alistLookup, hk]
    · simp [alistUpdate, alistLookup, hk, ih]

/-! ## Claim theorems -/

/-- C1: the claim says every failing remote call in `get_remote_branches`
and `get_remote_tree_for_branch` (connection failure, invalid JSON,
missing expected key) logs an error and returns an empty list, never
raising.  The code disagrees: on those paths `get_remote_branches`
reaches `return branches` with `branches` never assigned, raising
`UnboundLocalError`, and `get_remote_tree_for_branch` has no `KeyError`
handler at all, so a response lacking the `"tree"` key propagates a
`KeyError`.  Only the non-success HTTP status path returns `[]`. -/
theorem remote_failure_paths_raise :
    get_remote_branches .requestException = .unboundLocal
    ∧ get_remote_branches (.response true none) = .unboundLocal
    ∧ get_remote_branches (.response true (some (.arr [Json.obj []])))
        = .unboundLocal
    ∧ get_remote_branches (.response false none) = .ret []
    ∧ get_remote_tree_for_branch .requestException true IGNORED_FILE_PREFIXES
        = .unboundLocal
    ∧ get_remote_tree_for_branch (.response true none) true
        IGNORED_FILE_PREFIXES = .unboundLocal
    ∧ get_remote_tree_for_branch (.response true (some (.obj []))) true
        IGNORED_FILE_PREFIXES = .keyError
    ∧ get_remote_tree_for_branch (.response false none) true
        IGNORED_FILE_PREFIXES = .ret [] :=
  ⟨rfl, rfl, rfl, rfl, rfl, rfl, rfl, rfl⟩

/-- Concrete environment refuting C2: a modules repository whose config
lacks `org_path`, queried with `use_prompt = False`. -/
def c2Env : RepoConfigEnv :=
  ⟨true, true, some "modules", none, "pipeline", false, "nf-core", false⟩

/-- C2 counterexample: with prompting disallowed (`use_prompt = false`),
repository type `modules` configured, and `org_path` absent, the claim
says no prompt is invoked and the call fails with the Unresolved-Org
error; the code invokes the org prompt anyway and returns its answer. -/
theorem org_prompt_despite_use_prompt_false :
    (get_repo_info c2Env false).orgPromptInvoked = true
    ∧ (get_repo_info c2Env false).outcome = .ok ("modules", "nf-core") :=
  ⟨rfl, rfl⟩

/-- C2 amended: in `get_repo_info`, when the resolved repository type is
`modules` and `org_path` is absent from the configuration, the
interactive org prompt is presented regardless of `use_prompt`, and the
Unresolved-Org error is raised exactly when the prompt's answer is the
empty string. -/
theorem org_prompt_unconditional (env : RepoConfigEnv) (use_prompt : Bool)
    (hd : env.dir_exists = true) (hc : env.config_found = true)
    (ht : env.repository_type = some "modules")
    (ho : env.org_path = none ∨ env.org_path = some "") :
    (get_repo_info env use_prompt).orgPromptInvoked = true
    ∧ ((get_repo_info env use_prompt).outcome = .error .unresolvedOrg
        ↔ env.orgPromptAnswer = "") := by
  obtain ⟨de, cf, rt, op, tpa, tcs, opa, ocs⟩ := env
  simp only at hd hc ht ho ⊢
  subst hd hc ht
  rcases ho with h | h <;> subst h <;>
    by_cases ha : opa = "" <;>
      simp [get_repo_info, resolveOrgAndFinish, ha]

/-- C2 witness: the amended statement instantiated at the concrete
environment of the counterexample. -/
theorem org_prompt_unconditional_witness :
    (get_repo_info c2Env false).orgPromptInvoked = true
    ∧ ((get_repo_info c2Env false).outcome = .error .unresolvedOrg
        ↔ c2Env.orgPromptAnswer = "") :=
  org_prompt_unconditional c2Env false rfl rfl rfl (Or.inl rfl)

/-- C3: every line matched by the include pattern is classified by its
quoted path: a path starting `../../../` records a module under the
symbol lower-cased with underscores replaced by slashes, and otherwise a
path starting `../` records a subworkflow under the symbol lower-cased
unchanged. -/
theorem include_classification (line name link : String)
    (h : matchInclude line = some (name, link)) :
    (pyStartsWith link "../../../" = true →
      scan_main_nf [line] =
        ([(moduleNameOf name, ⟨some (moduleNameOf name), none, none, none⟩)],
         []))
    ∧ (pyStartsWith link "../../../" = false → pyStartsWith link "../" = true →
      scan_main_nf [line] =
        ([], [(pyLower name, ⟨some (pyLower name), none, none, none⟩)])) := by
  constructor
  · intro h1
    simp [scan_main_nf, h, h1, alistInsert, alistMem]
  · intro h1 h2
    simp [scan_main_nf, h, h1, h2, alistInsert, alistMem]

/-- C3 witness: the two example lines of the claim. -/
theorem include_classification_witness :
    matchInclude
        "include \x7b FOO_BAR \x7d from \x27../../../modules/nf-core/foo/bar/main.nf\x27"
      = some ("FOO_BAR", "../../../modules/nf-core/foo/bar/main.nf")
    ∧ scan_main_nf
        ["include \x7b FOO_BAR \x7d from \x27../../../modules/nf-core/foo/bar/main.nf\x27"]
      = ([("foo/bar", ⟨some "foo/bar", none, none, none⟩)], [])
    ∧ matchInclude "include \x7b BAZ \x7d from \x27../baz/main.nf\x27"
      = some ("BAZ", "../baz/main.nf")
    ∧ scan_main_nf ["include \x7b BAZ \x7d from \x27../baz/main.nf\x27"]
      = ([], [("baz", ⟨some "baz", none, none, none⟩)]) := by
  refine ⟨by decide, ?_, by decide, ?_⟩
  · exact (include_classification
      "include \x7b FOO_BAR \x7d from \x27../../../modules/nf-core/foo/bar/main.nf\x27"
      "FOO_BAR" "../../../modules/nf-core/foo/bar/main.nf"
      (by decide)).1 (by decide)
  · exact (include_classification
      "include \x7b BAZ \x7d from \x27../baz/main.nf\x27"
      "BAZ" "../baz/main.nf" (by decide)).2 (by decide) (by decide)

/-- C7: the workflow-parameter formatting produces exactly
`file(params.<prefix>testdata_base_path + "<path>", checkIfExists: true)`
with `modules_` when the branch equals the literal `modules` and
`pipelines_` otherwise. -/
theorem nf_path_output_shape :
    (∀ branch selection, nf_path_output branch selection =
      "file(params."
        ++ (if branch == "modules" then "modules_" else "pipelines_")
        ++ "testdata_base_path + \"" ++ selection
        ++ "\", checkIfExists: true)")
    ∧ nf_path_output "modules" "foo/bar.txt"
        = "file(params.modules_testdata_base_path + \"foo/bar.txt\", checkIfExists: true)"
    ∧ nf_path_output "main" "foo/bar.txt"
        = "file(params.pipelines_testdata_base_path + \"foo/bar.txt\", checkIfExists: true)" := by
  refine ⟨?_, rfl, rfl⟩
  intro branch selection
  apply String.ext
  cases hb : branch == "modules" <;>
    simp [nf_path_output, hb, String.data_append, List.append_assoc]

/-- C10 counterexample: the claim says a valid include statement preceded
by any prefix yields no record; but a prefix that is itself an include
statement makes the line match from its start, yielding a (subworkflow)
record — here the second statement is valid on its own, the line is the
first statement (as prefix) followed by the second, and scanning the line
records component `a`. -/
theorem include_prefixed_line_yields_record :
    matchInclude "include \x7b B \x7d from \x27../b\x27"
      = some ("B", "../b")
    ∧ "include \x7b A \x7d from \x27../a\x27 "
        ++ "include \x7b B \x7d from \x27../b\x27"
      = "include \x7b A \x7d from \x27../a\x27 include \x7b B \x7d from \x27../b\x27"
    ∧ scan_main_nf
        ["include \x7b A \x7d from \x27../a\x27 include \x7b B \x7d from \x27../b\x27"]
      = ([], [("a", ⟨some "a", none, none, none⟩)]) :=
  ⟨by decide, by decide, by decide⟩

/-- C10 amended: the recognizer is anchored — a line yields capture groups
only if it begins with the literal `include`; in particular a valid
include statement preceded by leading whitespace yields no record. -/
theorem include_match_anchored :
    (∀ line name link, matchInclude line = some (name, link) →
      "include".data <+: line.data)
    ∧ scan_main_nf ["  include \x7b BAZ \x7d from \x27../baz/main.nf\x27"]
      = ([], []) := by
  constructor
  · intro line name link h
    by_cases hp : ("include".data).isPrefixOf line.data
    · exact List.isPrefixOf_iff_prefix.mp hp
    · rw [matchInclude, if_neg hp] at h
      exact absurd h (by simp)
  · decide

/-- C10 witness: the anchoring fact at a concrete matching line. -/
theorem include_match_anchored_witness :
    matchInclude "include \x7b BAZ \x7d from \x27../baz/main.nf\x27"
      = some ("BAZ", "../baz/main.nf")
    ∧ "include".data <+:
        ("include \x7b BAZ \x7d from \x27../baz/main.nf\x27").data :=
  ⟨by decide,
   include_match_anchored.1 _ "BAZ" "../baz/main.nf" (by decide)⟩

/-- A well-formed tree response: HTTP success and a body with a `"tree"`
array of `(type, path)` nodes. -/
def mkTreeResponse (nodes : List (String × String)) : GetResult :=
  .response true (some (.obj [("tree",
    .arr (nodes.map fun p =>
      Json.obj [("type", .str p.1), ("path", .str p.2)]))]))

theorem blobFilter_nodes (nodes : List (String × String)) :
    blobFilter (nodes.map fun p =>
        Json.obj [("type", .str p.1), ("path", .str p.2)])
      = .ret ((nodes.filter (fun p => p.1 == "blob")).map fun p =>
          Json.obj [("type", .str p.1), ("path", .str p.2)]) := by
  induction nodes with
  | nil => rfl
  | cons q rest ih =>
    obtain ⟨t, pa⟩ := q
    by_cases ht : (t == "blob") = true <;>
      simp [blobFilter, lookupField, jsonBEq, ih, List.filter_cons, ht]

theorem ignoredFilter_nodes (ign : List String)
    (nodes : List (String × String)) :
    ignoredFilter ign (nodes.map fun p =>
        Json.obj [("type", .str p.1), ("path", .str p.2)])
      = .ret ((nodes.filter
          (fun p => !(ign.any fun q => pyStartsWith p.2 q))).map fun p =>
            Json.str p.2) := by
  induction nodes with
  | nil => rfl
  | cons q rest ih =>
    obtain ⟨t, pa⟩ := q
    cases ign with
    | nil => simp [ignoredFilter, lookupField, ih, List.filter_cons]
    | cons i is =>
      cases hp : (i :: is).any (fun q => pyStartsWith pa q) with
      | false =>
        have hc : pyStartsWith pa i = false
            ∧ ∀ x ∈ is, pyStartsWith pa x = false := by
          simpa using hp
        simp [ignoredFilter, lookupField, ih, List.filter_cons, hp, hc.1]
        rw [if_pos hc.2]
        simp
      | true =>
        have hc : ¬(pyStartsWith pa i = false
            ∧ ∀ x ∈ is, pyStartsWith pa x = false) := by
          intro hcc
          have hfalse : (i :: is).any (fun q => pyStartsWith pa q) = false := by
            simp only [List.any_cons, Bool.or_eq_false_iff, List.any_eq_false]
            exact ⟨hcc.1, fun x hx => by simp [hcc.2 x hx]⟩
          rw [hfalse] at hp
          cases hp
        simp [ignoredFilter, lookupField, ih, List.filter_cons, hp, hc]

/-- C6: the tree fetch keeps exactly the `"blob"` entries whose path starts
with no member of the ignored set; with the default set, the claim's
example tree yields exactly `data/sample.csv`. -/
theorem tree_filter_keeps_nonignored_blobs :
    (∀ (nodes : List (String × String)) (ign : List String),
      get_remote_tree_for_branch (mkTreeResponse nodes) true ign
        = .ret (((nodes.filter (fun p => p.1 == "blob")).filter
            (fun p => !(ign.any fun q => pyStartsWith p.2 q))).map
              fun p => Json.str p.2))
    ∧ get_remote_tree_for_branch
        (mkTreeResponse
          [("blob", ".github/x"), ("blob", "CITATION.cff"),
           ("blob", "README.md"), ("blob", "docs/readme.txt"),
           ("blob", "data/sample.csv")])
        true IGNORED_FILE_PREFIXES
      = .ret [Json.str "data/sample.csv"] := by
  refine ⟨?_, rfl⟩
  intro nodes ign
  simp [get_remote_tree_for_branch, mkTreeResponse, treeIndex, lookupField,
    iterElems, blobFilter_nodes, ignoredFilter_nodes]

/-- C5: a `meta.yml` components entry whose lower-cased name is present in
both collections is merged into the subworkflows collection, adding
`org_path`, `git_remote` and the optional `branch` onto the existing
record without deleting previously recorded data (the scanned `name`
field survives), and leaving the modules collection untouched. -/
theorem enrichment_prefers_subworkflows
    (mods subs : List (String × CompInfo)) (k gr org : String)
    (f0 mf : MetaFields) (rest : List (String × MetaFields)) (r : CompInfo)
    (hlook : alistLookup (pyLower k) ((k, f0) :: rest) = some mf)
    (hgr : mf.git_remote = some gr)
    (horg : org_path_search gr = some org)
    (hsub : alistLookup (pyLower k) subs = some r)
    (_hmod : alistMem mods (pyLower k) = true) :
    enrichComponents mods subs [MetaComponent.dict ((k, f0) :: rest)]
      = .ok (mods, alistUpdate subs (pyLower k) (fun c =>
          { c with org_path := some org, git_remote := some gr,
                   branch := some mf.branch }))
    ∧ alistLookup (pyLower k) (alistUpdate subs (pyLower k) (fun c =>
          { c with org_path := some org, git_remote := some gr,
                   branch := some mf.branch }))
      = some { r with org_path := some org, git_remote := some gr,
                      branch := some mf.branch } := by
  constructor
  · simp [enrichComponents, enrichOne, hlook, hgr, horg,
      alistMem_of_lookup hsub]
  · rw [alistLookup_update, hsub]
    rfl

/-- C5 witness: a concrete name present in both collections. -/
theorem enrichment_prefers_subworkflows_witness :
    enrichComponents
        [("foo", ⟨some "foo", none, none, none⟩)]
        [("foo", ⟨some "foo", none, none, none⟩)]
        [MetaComponent.dict
          [("foo", ⟨some "https://github.com/acme/sub.git", some "dev"⟩)]]
      = .ok ([("foo", ⟨some "foo", none, none, none⟩)],
             [("foo", ⟨some "foo", some "acme",
                       some "https://github.com/acme/sub.git",
                       some (some "dev")⟩)])
    ∧ alistLookup "foo"
        [("foo", (⟨some "foo", some "acme",
                   some "https://github.com/acme/sub.git",
                   some (some "dev")⟩ : CompInfo))]
      = some ⟨some "foo", some "acme",
              some "https://github.com/acme/sub.git", some (some "dev")⟩ :=
  enrichment_prefers_subworkflows
    [("foo", ⟨some "foo", none, none, none⟩)]
    [("foo", ⟨some "foo", none, none, none⟩)]
    "foo" "https://github.com/acme/sub.git" "acme"
    ⟨some "https://github.com/acme/sub.git", some "dev"⟩
    ⟨some "https://github.com/acme/sub.git", some "dev"⟩
    [] ⟨some "foo", none, none, none⟩
    (by decide) rfl (by decide) (by decide) (by decide)

/-- C9: a components entry whose lower-cased name is in neither collection
is routed to the modules collection and the merge step raises an
unhandled key-lookup failure (`KeyError` at the `.update` line), rather
than creating a new record or raising the Unresolved-Org error. -/
theorem enrichment_unknown_name_keyerror
    (mods subs : List (String × CompInfo)) (k gr org : String)
    (f0 mf : MetaFields) (rest : List (String × MetaFields))
    (hlook : alistLookup (pyLower k) ((k, f0) :: rest) = some mf)
    (hgr : mf.git_remote = some gr)
    (horg : org_path_search gr = some org)
    (hsub : alistMem subs (pyLower k) = false)
    (hmod : alistMem mods (pyLower k) = false) :
    enrichComponents mods subs [MetaComponent.dict ((k, f0) :: rest)]
      = .error (.keyErrorUpdate (pyLower k)) := by
  simp [enrichComponents, enrichOne, hlook, hgr, horg, hsub,
    alistLookup_of_not_mem hmod]

/-- C9 witness: a `ghost` entry against collections scanned from the two
example include lines. -/
theorem enrichment_unknown_name_keyerror_witness :
    enrichComponents
        [("foo/bar", ⟨some "foo/bar", none, none, none⟩)]
        [("baz", ⟨some "baz", none, none, none⟩)]
        [MetaComponent.dict
          [("ghost", ⟨some "https://github.com/nf-core/x.git", none⟩)]]
      = .error (.keyErrorUpdate "ghost") :=
  enrichment_unknown_name_keyerror
    [("foo/bar", ⟨some "foo/bar", none, none, none⟩)]
    [("baz", ⟨some "baz", none, none, none⟩)]
    "ghost" "https://github.com/nf-core/x.git" "nf-core"
    ⟨some "https://github.com/nf-core/x.git", none⟩
    ⟨some "https://github.com/nf-core/x.git", none⟩
    [] (by decide) rfl (by decide) (by decide) (by decide)

theorem jsonStrEq_true_iff (j : Json) (s : String) :
    jsonStrEq j s = true ↔ j = .str s := by
  cases j <;> simp [jsonStrEq]

theorem fetchTrees_single_branch (tResp : Json → GetResult)
    (ign : List String) (br : String) (files : List Json)
    (hfetch : get_remote_tree_for_branch (tResp (.str br)) true ign
      = .ret files) :
    ∀ l : List Json, (∀ x ∈ l, x = Json.str br) → l ≠ [] →
    ∀ acc, (acc = [] ∨ acc = [(Json.str br, files)]) →
    (fetchTrees tResp ign l acc).1 = .ret [(Json.str br, files)]
    ∧ (fetchTrees tResp ign l acc).2 = l := by
  intro l
  induction l with
  | nil => intro _ h; exact absurd rfl h
  | cons b rest ih =>
    intro hall _ acc hacc
    have hb : b = Json.str br := hall b (by simp)
    subst hb
    have hins : jsonDictInsert acc (Json.str br) files
        = [(Json.str br, files)] := by
      rcases hacc with h | h <;> subst h <;> simp [jsonDictInsert, jsonBEq]
    cases rest with
    | nil => simp [fetchTrees, hfetch, hins]
    | cons c cs =>
      have hrec := ih (fun x hx => hall x (List.mem_cons_of_mem _ hx))
        (by simp) (jsonDictInsert acc (Json.str br) files) (Or.inr hins)
      have hr1 := hrec.1
      have hr2 := hrec.2
      simp only [fetchTrees, hfetch] at hr1 hr2 ⊢
      simp [hr1, hr2]

/-- C8: requesting a specific branch restricts the mapping to exactly that
branch when it is among the fetched names (trees fetched only for it, no
error logged), and otherwise logs an error naming the request, fetches no
tree, and returns an empty mapping. -/
theorem list_files_by_branch_restriction
    (bResp : GetResult) (tResp : Json → GetResult) (ign : List String)
    (bs : List Json) (br : String)
    (h1 : get_remote_branches bResp = .ret bs) (h2 : ¬br = "") :
    ((Json.str br ∈ bs) → ∀ files,
      get_remote_tree_for_branch (tResp (.str br)) true ign = .ret files →
      (list_files_by_branch (some br) ign bResp tResp).outcome
          = .ret [(Json.str br, files)]
      ∧ (list_files_by_branch (some br) ign bResp tResp).noMatchLogged = none
      ∧ (list_files_by_branch (some br) ign bResp tResp).treeFetches ≠ []
      ∧ (∀ x ∈ (list_files_by_branch (some br) ign bResp tResp).treeFetches,
          x = Json.str br))
    ∧ ((Json.str br ∉ bs) →
      (list_files_by_branch (some br) ign bResp tResp).outcome = .ret []
      ∧ (list_files_by_branch (some br) ign bResp tResp).noMatchLogged
          = some br
      ∧ (list_files_by_branch (some br) ign bResp tResp).treeFetches
          = []) := by
  constructor
  · intro hmem files hfetch
    have hallf : ∀ x ∈ bs.filter (fun b => jsonStrEq b br), x = Json.str br :=
      fun x hx => (jsonStrEq_true_iff x br).mp (List.mem_filter.mp hx).2
    have hfmem : Json.str br ∈ bs.filter (fun b => jsonStrEq b br) :=
      List.mem_filter.mpr ⟨hmem, by simp [jsonStrEq]⟩
    have hfne : bs.filter (fun b => jsonStrEq b br) ≠ [] :=
      List.ne_nil_of_mem hfmem
    have hmain := fetchTrees_single_branch tResp ign br files hfetch
      (bs.filter (fun b => jsonStrEq b br)) hallf hfne [] (Or.inl rfl)
    have hempty : (bs.filter (fun b => jsonStrEq b br)).isEmpty = false := by
      cases hfil : bs.filter (fun b => jsonStrEq b br) with
      | nil => exact absurd hfil hfne
      | cons x xs => rfl
    refine ⟨?_, ?_, ?_, ?_⟩ <;>
      simp [list_files_by_branch, h1, h2, hempty, hmain.1, hmain.2, hallf,
        hfne]
    intro x hx hpx
    exact (jsonStrEq_true_iff x br).mp hpx
  · intro hnot
    have hfil : bs.filter (fun b => jsonStrEq b br) = [] := by
      rw [List.filter_eq_nil_iff]
      intro a ha hpa
      exact hnot ((jsonStrEq_true_iff a br).mp hpa ▸ ha)
    refine ⟨?_, ?_, ?_⟩ <;>
      simp [list_files_by_branch, h1, h2, hfil, fetchTrees]

/-- The branch-list response and tree responses of the C8 witness. -/
def c8Branches (names : List String) : GetResult :=
  .response true (some (.arr (names.map fun n => Json.obj [("name", .str n)])))

/-- C8 witness: branches `a, b, c` with request `b`, and branches `a, b`
with request `z`. -/
theorem list_files_by_branch_restriction_witness :
    ((list_files_by_branch (some "b") [] (c8Branches ["a", "b", "c"])
        (fun _ => mkTreeResponse [("blob", "f.txt")])).outcome
      = .ret [(Json.str "b", [Json.str "f.txt"])]
    ∧ (list_files_by_branch (some "b") [] (c8Branches ["a", "b", "c"])
        (fun _ => mkTreeResponse [("blob", "f.txt")])).noMatchLogged = none)
    ∧ ((list_files_by_branch (some "z") [] (c8Branches ["a", "b"])
        (fun _ => mkTreeResponse [("blob", "f.txt")])).outcome = .ret []
    ∧ (list_files_by_branch (some "z") [] (c8Branches ["a", "b"])
        (fun _ => mkTreeResponse [("blob", "f.txt")])).noMatchLogged
      = some "z"
    ∧ (list_files_by_branch (some "z") [] (c8Branches ["a", "b"])
        (fun _ => mkTreeResponse [("blob", "f.txt")])).treeFetches = []) := by
  constructor
  · have h := (list_files_by_branch_restriction (c8Branches ["a", "b", "c"])
      (fun _ => mkTreeResponse [("blob", "f.txt")]) []
      [Json.str "a", Json.str "b", Json.str "c"] "b" rfl (by decide)).1
      (by simp) [Json.str "f.txt"] rfl
    exact ⟨h.1, h.2.1⟩
  · exact (list_files_by_branch_restriction (c8Branches ["a", "b"])
      (fun _ => mkTreeResponse [("blob", "f.txt")]) []
      [Json.str "a", Json.str "b"] "z" rfl (by decide)).2 (by simp)

theorem promptPages_spec (log : List Commit) :
    ∀ (answers : List String) (i : Nat) (sha : String)
      (trace : List (List Commit × Bool)),
      promptPages (pageAt log i) (log.drop (10 * (i + 1))) answers
        = some (sha, trace) →
      sha ≠ "" ∧ sha ∈ log.map (·.git_sha) ∧ trace ≠ []
      ∧ ∀ (j : Nat) (hj : j < trace.length),
          trace.get ⟨j, hj⟩
            = (pageAt log (i + j), lookaheadNonempty log (i + j)) := by
  intro answers
  induction answers with
  | nil => intro i sha trace h; simp [promptPages] at h
  | cons a answers ih =>
    intro i sha trace h
    simp only [promptPages] at h
    by_cases hcont : (((pageAt log i).map (·.git_sha)
        ++ if !((log.drop (10 * (i + 1))).take 10).isEmpty then [""]
           else []).contains a) = true
    · rw [if_pos hcont] at h
      by_cases ha : (a == "") = true
      · rw [if_pos ha] at h
        cases hrec : promptPages ((log.drop (10 * (i + 1))).take 10)
            ((log.drop (10 * (i + 1))).drop 10) answers with
        | none => rw [hrec] at h; cases h
        | some pr =>
          obtain ⟨sha', trace'⟩ := pr
          rw [hrec] at h
          injection h with h
          injection h with hsha htrace
          subst hsha
          have hdrop : (log.drop (10 * (i + 1))).drop 10
              = log.drop (10 * (i + 1 + 1)) := by
            rw [List.drop_drop]
            congr 1
          have hpage : (log.drop (10 * (i + 1))).take 10
              = pageAt log (i + 1) := rfl
          rw [hdrop, hpage] at hrec
          obtain ⟨g1, g2, g3, g4⟩ := ih (i + 1) sha' trace' hrec
          subst htrace
          refine ⟨g1, g2, by simp, ?_⟩
          intro j hj
          cases j with
          | zero =>
            simp [pageAt, lookaheadNonempty]
          | succ j' =>
            have hj' : j' < trace'.length := by
              simpa using hj
            have := g4 j' hj'
            have harith : i + 1 + j' = i + (j' + 1) := by omega
            rw [harith] at this
            simpa using this
      · rw [if_neg ha] at h
        injection h with h
        injection h with hsha htrace
        subst hsha
        have hane : a ≠ "" := by simpa using ha
        have hmem : a ∈ (pageAt log i).map (·.git_sha)
            ++ (if !((log.drop (10 * (i + 1))).take 10).isEmpty then [""]
                else []) := by
          simpa using hcont
        have hmemlog : a ∈ log.map (·.git_sha) := by
          rcases List.mem_append.mp hmem with hl | hr
          · obtain ⟨c, hc, hcs⟩ := List.mem_map.mp hl
            exact List.mem_map.mpr
              ⟨c, List.drop_subset _ _ (List.take_subset _ _ hc), hcs⟩
          · exfalso
            rcases hif : (!((log.drop (10 * (i + 1))).take 10).isEmpty) with _ | _
            · rw [hif] at hr; simp at hr
            · rw [hif] at hr
              simp at hr
              exact hane hr
        subst htrace
        refine ⟨hane, hmemlog, by simp, ?_⟩
        intro j hj
        have hj0 : j = 0 := by simpa using Nat.lt_one_iff.mp (by simpa using hj)
        subst hj0
        simp [pageAt, lookaheadNonempty]
    · rw [if_neg hcont] at h
      cases h

/-- C4: whenever the commit picker returns, the selection is a concrete
commit hash from the log (never the empty "older commits" value), and
the `j`-th page shown was exactly the `j`-th batch of up to ten commits,
with the "older commits" choice appended exactly when the look-ahead
batch of up to ten was non-empty. -/
theorem commit_picker_pagination (log : List Commit) (answers : List String)
    (sha : String) (trace : List (List Commit × Bool))
    (h : prompt_component_version_sha log answers = some (sha, trace)) :
    sha ≠ "" ∧ sha ∈ log.map (·.git_sha) ∧ trace ≠ []
    ∧ (∀ p ∈ trace, p.1.length ≤ 10)
    ∧ ∀ (j : Nat) (hj : j < trace.length),
        trace.get ⟨j, hj⟩ = (pageAt log j, lookaheadNonempty log j) := by
  have h0 : promptPages (pageAt log 0) (log.drop (10 * (0 + 1))) answers
      = some (sha, trace) := by
    simpa [prompt_component_version_sha, pageAt] using h
  obtain ⟨g1, g2, g3, g4⟩ := promptPages_spec log answers 0 sha trace h0
  have g4' : ∀ (j : Nat) (hj : j < trace.length),
      trace.get ⟨j, hj⟩ = (pageAt log j, lookaheadNonempty log j) := by
    intro j hj
    simpa using g4 j hj
  refine ⟨g1, g2, g3, ?_, g4'⟩
  intro p hp
  obtain ⟨⟨j, hjlt⟩, hget⟩ := List.mem_iff_get.mp hp
  rw [← hget, g4' j hjlt]
  simp [pageAt]

/-- The 25-commit log of the claim's pagination example. -/
def c4Log : List Commit :=
  (List.range 25).map (fun i => ⟨"m" ++ toString i, "s" ++ toString i⟩)

/-- C4 witness: 25 commits paginate as 10, 10, 5 with the "older commits"
choice on the first two pages only, returning the concrete hash picked on
the third page. -/
theorem commit_picker_pagination_witness :
    prompt_component_version_sha c4Log ["", "", "s21"]
      = some ("s21", [(pageAt c4Log 0, true), (pageAt c4Log 1, true),
                      (pageAt c4Log 2, false)])
    ∧ (pageAt c4Log 0).length = 10 ∧ (pageAt c4Log 1).length = 10
    ∧ (pageAt c4Log 2).length = 5
    ∧ lookaheadNonempty c4Log 0 = true ∧ lookaheadNonempty c4Log 1 = true
    ∧ lookaheadNonempty c4Log 2 = false
    ∧ "s21" ≠ "" ∧ "s21" ∈ c4Log.map (·.git_sha) := by
  refine ⟨by decide, by decide, by decide, by decide, by decide, by decide,
    by decide, ?_, ?_⟩
  · exact (commit_picker_pagination c4Log ["", "", "s21"] "s21"
      [(pageAt c4Log 0, true), (pageAt c4Log 1, true), (pageAt c4Log 2, false)]
      (by decide)).1
  · exact (commit_picker_pagination c4Log ["", "", "s21"] "s21"
      [(pageAt c4Log 0, true), (pageAt c4Log 1, true), (pageAt c4Log 2, false)]
      (by decide)).2.1

end NfCore
